import Mathlib

/-!
Verification of the dmc-playground stock backend.

Shallow embedding of the service-layer logic of
`src/backend/services/stock_service.py` and
`src/backend/services/yf_adapter.py`:

* float values are modelled as exact rationals (ℚ); every scenario in the
  claims uses values that are exact in both representations;
* the database session is modelled as explicit state (lists of rows);
* wall-clock fields (`created_at`, `updated_at`) are outside the embedding;
* Python `None` becomes `Option.none`.

The transaction-type literals in the source are the Korean strings
"매수" (buy) and "매도" (sell); the spec refers to them by their English
glosses "buy" and "sell".
-/

/-- A row of the `stocktransaction` table (fields used by the holding
recomputation; see `StockTransactionBase` in `models/transaction.py`). -/
structure StockTransaction where
  user_id : Int
  stock_info_id : Int
  ticker : String
  transaction_type : String
  quantity : Int
  total_amount : ℚ
  deriving Repr, DecidableEq

/-- The fields of a `stockholdingdetail` row that the recomputation reads or
writes (see `StockHoldingDetailBase` in `models/holding.py`; the optional
market-data fields and the timestamps are not touched by it). -/
structure StockHoldingDetail where
  user_id : Int
  stock_info_id : Int
  ticker : String
  holding_quantity : Int
  average_buy_price : ℚ
  total_buy_amount : ℚ
  deriving Repr, DecidableEq

/-- One step of the transaction fold in `_update_stock_holding_detail`
(stock_service.py lines 337-343): "매수" (buy) adds quantity and amount,
"매도" (sell) subtracts both, any other literal is ignored. -/
def holdingStep (acc : Int × ℚ) (t : StockTransaction) : Int × ℚ :=
  if t.transaction_type = "매수" then (acc.1 + t.quantity, acc.2 + t.total_amount)
  else if t.transaction_type = "매도" then (acc.1 - t.quantity, acc.2 - t.total_amount)
  else acc

/-- The accumulated (holding_quantity, total_buy_amount) over a transaction
list, starting from (0, 0.0) (stock_service.py lines 334-343). -/
def holdingTotals (ts : List StockTransaction) : Int × ℚ :=
  ts.foldl holdingStep (0, 0)

/-- stock_service.py line 345:
`total_buy_amount / holding_quantity if holding_quantity > 0 else 0.0`. -/
def averageBuyPrice (q : Int) (total : ℚ) : ℚ :=
  if 0 < q then total / (q : ℚ) else 0

/-- The `select ... where user_id == ... and stock_info_id == ...` of
stock_service.py lines 326-331, over an explicit table. -/
def transactionsFor (user_id stock_info_id : Int) (table : List StockTransaction) :
    List StockTransaction :=
  table.filter (fun t => t.user_id == user_id && t.stock_info_id == stock_info_id)

/-- `_update_stock_holding_detail` (stock_service.py lines 321-382) acting on
the (user, stock) holding row, modelled as `Option StockHoldingDetail`
(`none` = no row exists). Recomputes the totals from the transaction table,
deletes the row when the quantity is ≤ 0 (absence of the row is not an
error: the function is total and returns `none` either way), otherwise
updates the existing row in place or creates a fresh one. -/
def update_stock_holding_detail (user_id stock_info_id : Int) (ticker : String)
    (table : List StockTransaction) (existing : Option StockHoldingDetail) :
    Option StockHoldingDetail :=
  let ts := transactionsFor user_id stock_info_id table
  let q := (holdingTotals ts).1
  let total := (holdingTotals ts).2
  let avg := averageBuyPrice q total
  if q ≤ 0 then none
  else
    match existing with
    | some d =>
        some { d with holding_quantity := q, average_buy_price := avg,
                      total_buy_amount := total }
    | none =>
        some { user_id := user_id, stock_info_id := stock_info_id, ticker := ticker,
               holding_quantity := q, average_buy_price := avg, total_buy_amount := total }

/-- The three-transaction scenario of the spec: buy 10 (total 1000),
buy 10 (total 1200), sell 5 (total 650), all for user 1 on stock 1. -/
def scenarioTxns : List StockTransaction :=
  [ { user_id := 1, stock_info_id := 1, ticker := "AAPL", transaction_type := "매수",
      quantity := 10, total_amount := 1000 },
    { user_id := 1, stock_info_id := 1, ticker := "AAPL", transaction_type := "매수",
      quantity := 10, total_amount := 1200 },
    { user_id := 1, stock_info_id := 1, ticker := "AAPL", transaction_type := "매도",
      quantity := 5, total_amount := 650 } ]

/-- A row of the `stockinfo` table (`StockInfoBase` plus the primary key;
creation timestamps are outside the embedding). -/
structure StockInfo where
  id : Int
  ticker : String
  name : Option String
  market : Option String
  currency : String
  deriving Repr, DecidableEq

/-- One element of the `records` list inside `upsert_stocks_from_dataframe`
as the dedup/insert logic consumes it: `time` is the instant the tz-aware
timestamp denotes (Python datetime comparison, equality, hashing and SQL
timestamp comparison all work on instants), and the metadata fields
(ticker/name/market/currency) the code pops before insertion are omitted. -/
structure PriceRow where
  time : Int
  «open» : Option ℚ
  high : Option ℚ
  low : Option ℚ
  close : Option ℚ
  previous_close : Option ℚ
  change : Option ℚ
  change_percent : Option ℚ
  adjusted_close : Option ℚ
  volume : Int
  deriving Repr, DecidableEq

/-- A row of the `stockprice` table (`StockPriceBase` plus the foreign key;
like `PriceRow`, `time` is the instant; surrogate id and timestamps are
outside the embedding). -/
structure StockPrice where
  stock_info_id : Int
  time : Int
  «open» : Option ℚ
  high : Option ℚ
  low : Option ℚ
  close : Option ℚ
  previous_close : Option ℚ
  change : Option ℚ
  change_percent : Option ℚ
  adjusted_close : Option ℚ
  volume : Int
  deriving Repr, DecidableEq

/-- The database state the stock/price service functions touch. -/
structure DB where
  stockInfos : List StockInfo
  prices : List StockPrice
  deriving Repr, DecidableEq

/-- `StockPrice(**price_data, stock_info_id=stock_info.id)`
(stock_service.py line 276): the record fields are copied verbatim. -/
def toStockPrice (sid : Int) (r : PriceRow) : StockPrice :=
  { stock_info_id := sid, time := r.time, «open» := r.«open», high := r.high,
    low := r.low, close := r.close, previous_close := r.previous_close,
    change := r.change, change_percent := r.change_percent,
    adjusted_close := r.adjusted_close, volume := r.volume }

/-- A fresh autoincrement id: strictly larger than every id in use (the
relational store assigns primary keys; foreign keys only reference existing
rows, so taking the maximum over both columns is a faithful allocator). -/
def nextStockInfoId (db : DB) : Int :=
  (db.stockInfos.map StockInfo.id ++ db.prices.map StockPrice.stock_info_id).foldl max 0 + 1

/-- `get_or_create_stock_info` (stock_service.py lines 36-47): look the
ticker up; on a miss, insert a fresh row and return it. -/
def get_or_create_stock_info (db : DB) (ticker : String) (name market : Option String)
    (currency : String) : StockInfo × DB :=
  match db.stockInfos.find? (fun s => s.ticker == ticker) with
  | some s => (s, db)
  | none =>
      let s : StockInfo :=
        { id := nextStockInfoId db, ticker := ticker, name := name, market := market,
          currency := currency }
      (s, { db with stockInfos := db.stockInfos ++ [s] })

/-- All stored price timestamps of one StockInfo (no range restriction). -/
def storedTimesFor (db : DB) (sid : Int) : List Int :=
  (db.prices.filter (fun p => p.stock_info_id == sid)).map StockPrice.time

/-- The `select StockPrice.time where stock_info_id == ... and time >= min
and time <= max` of stock_service.py lines 257-264. -/
def existingTimesFor (db : DB) (sid lo hi : Int) : List Int :=
  (db.prices.filter (fun p =>
    p.stock_info_id == sid && decide (lo ≤ p.time) && decide (p.time ≤ hi))).map
    StockPrice.time

/-- The store committing a batch of added rows: each row is checked, in
order, against the table as grown so far, under the stockprice
(stock_info_id, time) unique constraint `uq_stock_price_stock_info_id_time`
(models/price.py line 39, created by init_db). `none` models the
IntegrityError the commit raises; the transaction then persists nothing. -/
def insertPricesUnique : List StockPrice → List StockPrice → Option (List StockPrice)
  | acc, [] => some acc
  | acc, p :: rest =>
      if acc.any (fun q => q.stock_info_id == p.stock_info_id && q.time == p.time) then
        none
      else insertPricesUnique (acc ++ [p]) rest

/-- `upsert_stocks_from_dataframe` (stock_service.py lines 227-283), taking
the already-adapted `records` list: resolve (or create) the StockInfo; on an
empty record list return 0; otherwise compute the min/max timestamp of the
records, collect the existing stored timestamps in that range, add exactly
the records whose timestamp is not among them and commit, returning the
count of added rows — unless the commit violates the stockprice
(stock_info_id, time) unique constraint, in which case the call raises
(`.error`) and persists nothing. -/
def upsert_stocks_from_dataframe (db : DB) (ticker : String) (name market : Option String)
    (currency : String) (records : List PriceRow) : Except String (Nat × DB) :=
  let resolved := get_or_create_stock_info db ticker name market currency
  let info := resolved.1
  let db1 := resolved.2
  match records with
  | [] => .ok (0, db1)
  | r :: rs =>
      let times := (r :: rs).map PriceRow.time
      let min_time := times.foldl min r.time
      let max_time := times.foldl max r.time
      let existing_times := existingTimesFor db1 info.id min_time max_time
      let newRecords := (r :: rs).filter (fun x => !(existing_times.contains x.time))
      match insertPricesUnique db1.prices (newRecords.map (toStockPrice info.id)) with
      | some prices2 => .ok (newRecords.length, { db1 with prices := prices2 })
      | none => .error "IntegrityError: uq_stock_price_stock_info_id_time"

/-- Existence part of `get_stock_info` (stock_service.py lines 50-60):
the row with the given id, `none` = not-found (404). -/
def get_stock_info (db : DB) (stock_info_id : Int) : Option StockInfo :=
  db.stockInfos.find? (fun s => s.id == stock_info_id)

/-- Existence part of `get_stock_info_by_ticker`
(stock_service.py lines 63-73). -/
def get_stock_info_by_ticker (db : DB) (ticker : String) : Option StockInfo :=
  db.stockInfos.find? (fun s => s.ticker == ticker)

/-- `delete_stock_info` (stock_service.py lines 207-224): absent id reports
failure and changes nothing; otherwise every StockPrice row of this
StockInfo is deleted, then the StockInfo row itself. -/
def delete_stock_info (db : DB) (stock_info_id : Int) : Bool × DB :=
  match db.stockInfos.find? (fun s => s.id == stock_info_id) with
  | none => (false, db)
  | some _ =>
      (true,
       { stockInfos := db.stockInfos.eraseP (fun s => s.id == stock_info_id),
         prices := db.prices.filter (fun p => !(p.stock_info_id == stock_info_id)) })

/-- A pandas timestamp: a wall-clock reading (in minutes) that is either
naive (`tz = none`) or aware of a fixed-offset zone, the zone being its UTC
offset in minutes. -/
structure Timestamp where
  wall : Int
  tz : Option Int
  deriving Repr, DecidableEq

/-- The instant an aware timestamp denotes (its UTC reading). -/
def Timestamp.instant (t : Timestamp) : Int := t.wall - t.tz.getD 0

/-- pandas `tz_localize`: attach a zone to a naive timestamp; the wall-clock
reading is reinterpreted in that zone (the denoted instant changes). -/
def tz_localize (t : Timestamp) (off : Int) : Timestamp :=
  { wall := t.wall, tz := some off }

/-- pandas `tz_convert`: move an aware timestamp to another zone, keeping
the denoted instant and shifting the wall-clock reading. The adapter never
calls it on a naive timestamp. -/
def tz_convert (t : Timestamp) (off : Int) : Timestamp :=
  match t.tz with
  | some o => { wall := t.wall - o + off, tz := some off }
  | none => t

/-- yf_adapter.py lines 52-56: a naive index entry is localized to the
requested zone, an aware one is converted to it. -/
def normalizeIndex (t : Timestamp) (off : Int) : Timestamp :=
  match t.tz with
  | none => tz_localize t off
  | some _ => tz_convert t off

/-- A table cell; `none` models NaN and NA alike (`pd.notna` is false on
both). -/
abbrev Cell := Option ℚ

/-- The column axis of the provider DataFrame: a flat axis of named columns,
or a two-level MultiIndex carrying the two level names and one
(label₀, label₁) pair per column, as multi-ticker downloads produce. -/
inductive Columns where
  | flat (cols : List (String × List Cell))
  | multi (names : Option String × Option String)
      (cols : List ((String × String) × List Cell))
  deriving Repr, DecidableEq

/-- The row index and column axis of the provider DataFrame. -/
structure DataFrame where
  index : List Timestamp
  columns : Columns
  deriving Repr, DecidableEq

/-- Python `name in df.columns` / `name in row`: direct membership on a flat
axis; on a MultiIndex axis a scalar key is a partial key checked against
level 0 only. -/
def Columns.containsName : Columns → String → Bool
  | .flat cols, nm => cols.any (fun col => col.1 == nm)
  | .multi _ cols, nm => cols.any (fun col => col.1.1 == nm)

/-- `df.xs(ticker, level="Ticker", axis=1)`: keep the columns whose label at
the level named "Ticker" equals the ticker, dropping that level; `none`
models the KeyError raised when the ticker is absent at that level. -/
def xsTicker (c : Columns) (ticker : String) : Option Columns :=
  match c with
  | .flat _ => none
  | .multi (n0, n1) cols =>
      if n0 = some "Ticker" then
        let sel := cols.filter (fun col => col.1.1 == ticker)
        if sel.isEmpty then none
        else some (.flat (sel.map (fun col => (col.1.2, col.2))))
      else if n1 = some "Ticker" then
        let sel := cols.filter (fun col => col.1.2 == ticker)
        if sel.isEmpty then none
        else some (.flat (sel.map (fun col => (col.1.1, col.2))))
      else none

/-- yf_adapter.py lines 43-49: only a MultiIndex axis whose level names
include "Ticker" is sliced; a failing `xs` is swallowed by the
`except: pass` and the frame is kept as-is. -/
def sliceTicker (c : Columns) (ticker : String) : Columns :=
  match c with
  | .flat _ => c
  | .multi (n0, n1) _ =>
      if n0 = some "Ticker" ∨ n1 = some "Ticker" then
        match xsTicker c ticker with
        | some c2 => c2
        | none => c
      else c

/-- The yfinance-to-StockBase column name mapping of yf_adapter.py
lines 34-40. -/
def column_map : List (String × String) :=
  [("Open", "open"), ("High", "high"), ("Low", "low"), ("Close", "close"),
   ("Volume", "volume")]

/-- Apply a rename mapper to one label (labels not in the mapper stay). -/
def applyMapper (m : List (String × String)) (s : String) : String :=
  match m.find? (fun kv => kv.1 == s) with
  | some kv => kv.2
  | none => s

/-- Rename a flat axis with the mapper restricted to present keys
(`{k: v for k, v in column_map.items() if k in df.columns}`). -/
def renameFlat (cols : List (String × List Cell)) : List (String × List Cell) :=
  let m := column_map.filter (fun kv => Columns.containsName (.flat cols) kv.1)
  cols.map (fun col => (applyMapper m col.1, col.2))

/-- `df.rename(columns=mapper)` (yf_adapter.py line 58): the mapper keys are
filtered by axis membership (a level-0 check on a MultiIndex), and pandas
applies the mapper to the labels of every level. -/
def renameColumns (c : Columns) : Columns :=
  match c with
  | .flat cols => .flat (renameFlat cols)
  | .multi names cols =>
      let m := column_map.filter (fun kv => Columns.containsName (.multi names cols) kv.1)
      .multi names
        (cols.map (fun col => ((applyMapper m col.1.1, applyMapper m col.1.2), col.2)))

/-- The cell of row `i` in the named column of a flat axis, `none` when the
column is absent or the cell is NaN/NA. -/
def flatCell (cols : List (String × List Cell)) (nm : String) (i : Nat) : Cell :=
  match cols.find? (fun col => col.1 == nm) with
  | some col => col.2.getD i none
  | none => none

/-- `float(row[k]) if k in row and pd.notna(row[k]) else None`
(yf_adapter.py lines 72-78): on a flat axis this is the cell or `none`. On
a MultiIndex axis, `k in row` is a level-0 partial-key check; when it
succeeds, `row[k]` is a sub-Series and `pd.notna(row[k])` a boolean Series,
whose truth-value test raises ValueError ("The truth value of a Series is
ambiguous") outside any try/except — modelled as an error. -/
def readField (c : Columns) (i : Nat) (nm : String) : Except String Cell :=
  match c with
  | .flat cols => .ok (flatCell cols nm i)
  | .multi _ cols =>
      if cols.any (fun col => col.1.1 == nm) then
        .error "The truth value of a Series is ambiguous"
      else .ok none

/-- yf_adapter.py lines 65-70: only consulted when `auto_adjust` is false
and "Adj Close" is in the axis; the read sits inside a try/except, so the
Series-ambiguity ValueError of a MultiIndex axis is swallowed to None. -/
def readAdjClose (c : Columns) (i : Nat) (auto_adjust : Bool) : Cell :=
  if auto_adjust then none
  else if c.containsName "Adj Close" then
    match c with
    | .flat cols => flatCell cols "Adj Close" i
    | .multi _ _ => none
  else none

/-- Python `int(float(x))`: truncation toward zero. -/
def ratToInt (q : ℚ) : Int := if q < 0 then -((-q).floor) else q.floor

/-- The adapter output record. The `StockBase` class itself lives outside
src/; its field list is reconstructed from the constructor call at
yf_adapter.py lines 91-106 and the field pops at stock_service.py
lines 270-274. -/
structure StockBase where
  ticker : String
  name : Option String
  market : Option String
  currency : String
  time : Timestamp
  «open» : Option ℚ
  high : Option ℚ
  low : Option ℚ
  close : Option ℚ
  previous_close : Option ℚ
  change : Option ℚ
  change_percent : Option ℚ
  adjusted_close : Option ℚ
  volume : Int
  deriving Repr, DecidableEq

/-- One iteration of the row loop of yf_adapter.py lines 63-108: read the
adjusted close (errors swallowed), then the five fields (errors propagate),
default a missing volume to 0, and derive change/change_percent from the
carried previous close. -/
def buildRow (c : Columns) (auto_adjust : Bool) (ticker : String)
    (name market : Option String) (currency : String) (i : Nat) (t : Timestamp)
    (previous_close : Cell) : Except String StockBase := do
  let adjusted_close_val := readAdjClose c i auto_adjust
  let open_val ← readField c i "open"
  let high_val ← readField c i "high"
  let low_val ← readField c i "low"
  let close_val ← readField c i "close"
  let volume_cell ← readField c i "volume"
  let volume_val : Int := match volume_cell with
    | some q => ratToInt q
    | none => 0
  let change : Cell := match previous_close, close_val with
    | some p, some cl => some (cl - p)
    | _, _ => none
  let change_percent : Cell := match previous_close, close_val with
    | some p, some cl => if p = 0 then none else some ((cl - p) / p * 100)
    | _, _ => none
  pure { ticker := ticker, name := name, market := market, currency := currency,
         time := t, «open» := open_val, high := high_val, low := low_val,
         close := close_val, previous_close := previous_close, change := change,
         change_percent := change_percent,
         adjusted_close := if auto_adjust then close_val else adjusted_close_val,
         volume := volume_val }

/-- The row loop, threading the previous-close state: after each row the
carried value becomes that row's close when present, else stays
(yf_adapter.py line 109). -/
def adapterRows (c : Columns) (auto_adjust : Bool) (ticker : String)
    (name market : Option String) (currency : String) :
    List (Nat × Timestamp) → Cell → Except String (List StockBase)
  | [], _ => .ok []
  | (i, t) :: rest, prev => do
      let record ← buildRow c auto_adjust ticker name market currency i t prev
      let tail ← adapterRows c auto_adjust ticker name market currency rest
        (match record.close with
         | some cl => some cl
         | none => prev)
      pure (record :: tail)

/-- `df_to_stockbase` (yf_adapter.py lines 8-111): slice the requested
ticker out of a MultiIndex axis, normalize the index timezone (`timezone`
is the requested output zone as a UTC offset in minutes), rename the
provider column names, then build one record per row in order. -/
def df_to_stockbase (df : DataFrame) (ticker : String) (name market : Option String)
    (currency : String) (auto_adjust : Bool) (timezone : Int) :
    Except String (List StockBase) :=
  let c1 := sliceTicker df.columns ticker
  let idx := df.index.map (fun t => normalizeIndex t timezone)
  let c2 := renameColumns c1
  adapterRows c2 auto_adjust ticker name market currency idx.enum none

/-- Reference description of one loop iteration on a flat axis (all reads
succeed); `buildRow` on a flat axis returns exactly this record. -/
def buildRowFlat (cols : List (String × List Cell)) (auto_adjust : Bool) (ticker : String)
    (name market : Option String) (currency : String) (i : Nat) (t : Timestamp)
    (previous_close : Cell) : StockBase :=
  { ticker := ticker, name := name, market := market, currency := currency, time := t,
    «open» := flatCell cols "open" i, high := flatCell cols "high" i,
    low := flatCell cols "low" i, close := flatCell cols "close" i,
    previous_close := previous_close,
    change := match previous_close, flatCell cols "close" i with
      | some p, some cl => some (cl - p)
      | _, _ => none,
    change_percent := match previous_close, flatCell cols "close" i with
      | some p, some cl => if p = 0 then none else some ((cl - p) / p * 100)
      | _, _ => none,
    adjusted_close := if auto_adjust then flatCell cols "close" i
      else readAdjClose (.flat cols) i auto_adjust,
    volume := match flatCell cols "volume" i with
      | some q => ratToInt q
      | none => 0 }

/-- Reference description of the whole loop on a flat axis. -/
def flatRecords (cols : List (String × List Cell)) (auto_adjust : Bool) (ticker : String)
    (name market : Option String) (currency : String) :
    List (Nat × Timestamp) → Cell → List StockBase
  | [], _ => []
  | (i, t) :: rest, prev =>
      let r := buildRowFlat cols auto_adjust ticker name market currency i t prev
      r :: flatRecords cols auto_adjust ticker name market currency rest
        (match r.close with
         | some cl => some cl
         | none => prev)

theorem sell_ne_buy : ¬ ("매도" = "매수") := by decide

theorem le_foldl_max (l : List Int) (b : Int) : b ≤ l.foldl max b := by
  induction l generalizing b with
  | nil => exact le_refl b
  | cons c t ih => exact le_trans (le_max_left b c) (ih (max b c))

theorem mem_le_foldl_max (l : List Int) (b a : Int) (h : a ∈ l) : a ≤ l.foldl max b := by
  induction l generalizing b with
  | nil => cases h
  | cons c t ih =>
      rcases List.mem_cons.mp h with rfl | h2
      · exact le_trans (le_max_right b a) (le_foldl_max t (max b a))
      · exact ih (max b c) h2

theorem foldl_min_le (l : List Int) (b : Int) : l.foldl min b ≤ b := by
  induction l generalizing b with
  | nil => exact le_refl b
  | cons c t ih => exact le_trans (ih (min b c)) (min_le_left b c)

theorem foldl_min_le_mem (l : List Int) (b a : Int) (h : a ∈ l) : l.foldl min b ≤ a := by
  induction l generalizing b with
  | nil => cases h
  | cons c t ih =>
      rcases List.mem_cons.mp h with rfl | h2
      · exact le_trans (foldl_min_le t (min b a)) (min_le_right b a)
      · exact ih (min b c) h2

theorem contains_congr (l1 l2 : List Int) (a : Int) (h : a ∈ l1 ↔ a ∈ l2) :
    l1.contains a = l2.contains a :=
  Bool.eq_iff_iff.mpr (List.elem_iff.trans (h.trans List.elem_iff.symm))

theorem mem_existingTimesFor (db : DB) (sid lo hi t : Int) :
    t ∈ existingTimesFor db sid lo hi ↔ t ∈ storedTimesFor db sid ∧ lo ≤ t ∧ t ≤ hi := by
  constructor
  · intro hm
    obtain ⟨p, hp, rfl⟩ := List.mem_map.mp hm
    obtain ⟨hmem, hcond⟩ := List.mem_filter.mp hp
    simp only [Bool.and_eq_true, beq_iff_eq, decide_eq_true_eq] at hcond
    exact ⟨List.mem_map.mpr ⟨p, List.mem_filter.mpr ⟨hmem, by simp [hcond.1.1]⟩, rfl⟩,
      hcond.1.2, hcond.2⟩
  · rintro ⟨hm, h1, h2⟩
    obtain ⟨p, hp, rfl⟩ := List.mem_map.mp hm
    obtain ⟨hmem, hcond⟩ := List.mem_filter.mp hp
    simp only [beq_iff_eq] at hcond
    exact List.mem_map.mpr ⟨p, List.mem_filter.mpr ⟨hmem, by simp [hcond, h1, h2]⟩, rfl⟩

theorem get_or_create_stockInfos_keeps (db : DB) (tk : String) (nm mk : Option String)
    (cur : String) :
    (get_or_create_stock_info db tk nm mk cur).2.prices = db.prices := by
  unfold get_or_create_stock_info
  rcases hf : db.stockInfos.find? (fun s => s.ticker == tk) with _ | s <;> simp [hf]

theorem storedTimesFor_congr (db1 db2 : DB) (sid : Int) (h : db1.prices = db2.prices) :
    storedTimesFor db1 sid = storedTimesFor db2 sid := by
  simp [storedTimesFor, h]

theorem storedTimesFor_append (si : List StockInfo) (p1 p2 : List StockPrice) (sid : Int) :
    storedTimesFor ⟨si, p1 ++ p2⟩ sid =
      storedTimesFor ⟨si, p1⟩ sid ++ storedTimesFor ⟨si, p2⟩ sid := by
  simp [storedTimesFor, List.filter_append]

theorem storedTimesFor_nextId (db : DB) : storedTimesFor db (nextStockInfoId db) = [] := by
  have hnil : db.prices.filter (fun p => p.stock_info_id == nextStockInfoId db) = [] := by
    rw [List.filter_eq_nil_iff]
    intro p hp
    have hle : p.stock_info_id ≤
        (db.stockInfos.map StockInfo.id ++ db.prices.map StockPrice.stock_info_id).foldl
          max 0 :=
      mem_le_foldl_max _ 0 _
        (List.mem_append_right _ (List.mem_map_of_mem StockPrice.stock_info_id hp))
    simp only [beq_iff_eq, nextStockInfoId]
    omega
  simp [storedTimesFor, hnil]

theorem get_or_create_find_self (db : DB) (tk : String) (nm mk : Option String)
    (cur : String) :
    (get_or_create_stock_info db tk nm mk cur).2.stockInfos.find?
        (fun s => s.ticker == tk) =
      some (get_or_create_stock_info db tk nm mk cur).1 := by
  unfold get_or_create_stock_info
  rcases hf : db.stockInfos.find? (fun s => s.ticker == tk) with _ | s
  · simp [List.find?_append, hf, List.find?]
  · simp [hf]

theorem get_or_create_stable (db2 : DB) (tk : String) (nm mk : Option String)
    (cur : String) (info : StockInfo)
    (hf : db2.stockInfos.find? (fun s => s.ticker == tk) = some info) :
    get_or_create_stock_info db2 tk nm mk cur = (info, db2) := by
  unfold get_or_create_stock_info
  rw [hf]

theorem upsert_cons_eq (db : DB) (tk : String) (nm mk : Option String) (cur : String)
    (r : PriceRow) (rs : List PriceRow) :
    upsert_stocks_from_dataframe db tk nm mk cur (r :: rs) =
      (match insertPricesUnique (get_or_create_stock_info db tk nm mk cur).2.prices
          (((r :: rs).filter (fun x =>
            !((storedTimesFor db
                (get_or_create_stock_info db tk nm mk cur).1.id).contains x.time))).map
            (toStockPrice (get_or_create_stock_info db tk nm mk cur).1.id)) with
       | some prices2 =>
          .ok (((r :: rs).filter (fun x =>
              !((storedTimesFor db
                  (get_or_create_stock_info db tk nm mk cur).1.id).contains
                x.time))).length,
            { (get_or_create_stock_info db tk nm mk cur).2 with prices := prices2 })
       | none => .error "IntegrityError: uq_stock_price_stock_info_id_time") := by
  have hfc : (r :: rs).filter (fun x =>
        !((existingTimesFor (get_or_create_stock_info db tk nm mk cur).2
            (get_or_create_stock_info db tk nm mk cur).1.id
            (((r :: rs).map PriceRow.time).foldl min r.time)
            (((r :: rs).map PriceRow.time).foldl max r.time)).contains x.time)) =
      (r :: rs).filter (fun x =>
        !((storedTimesFor db
            (get_or_create_stock_info db tk nm mk cur).1.id).contains x.time)) := by
    apply List.filter_congr
    intro x hx
    have hlo : ((r :: rs).map PriceRow.time).foldl min r.time ≤ x.time :=
      foldl_min_le_mem _ _ _ (List.mem_map_of_mem PriceRow.time hx)
    have hhi : x.time ≤ ((r :: rs).map PriceRow.time).foldl max r.time :=
      mem_le_foldl_max _ _ _ (List.mem_map_of_mem PriceRow.time hx)
    have hc : (existingTimesFor (get_or_create_stock_info db tk nm mk cur).2
          (get_or_create_stock_info db tk nm mk cur).1.id
          (((r :: rs).map PriceRow.time).foldl min r.time)
          (((r :: rs).map PriceRow.time).foldl max r.time)).contains x.time
        = (storedTimesFor db (get_or_create_stock_info db tk nm mk cur).1.id).contains
            x.time := by
      apply contains_congr
      rw [← storedTimesFor_congr (get_or_create_stock_info db tk nm mk cur).2 db
        (get_or_create_stock_info db tk nm mk cur).1.id
        (get_or_create_stockInfos_keeps db tk nm mk cur)]
      constructor
      · intro h
        exact ((mem_existingTimesFor _ _ _ _ _).mp h).1
      · intro h
        exact (mem_existingTimesFor _ _ _ _ _).mpr ⟨h, hlo, hhi⟩
    rw [hc]
  simp only [upsert_stocks_from_dataframe]
  rw [hfc]

/-- C1: the holding recomputation folds over the transactions, adding
(quantity, total_amount) on a buy ("매수") and subtracting both on a sell
("매도"); `average_buy_price = total_cost / holding_quantity` when the
quantity is positive and 0 otherwise; the stored StockHoldingDetail carries
exactly the folded quantity, the average and the folded total; and the
spec scenario (buy 10 total 1000, buy 10 total 1200, sell 5 total 650)
yields quantity 15, total 1550 and average 1550/15 = 310/3, which is
103.33 to two decimals (⌊avg·100⌋ = 10333). -/
theorem holding_recompute_matches_fold
    (acc : Int × ℚ) (t : StockTransaction) (q : Int) (c : ℚ)
    (uid sid : Int) (tk : String) (table : List StockTransaction)
    (ex : Option StockHoldingDetail) :
    (t.transaction_type = "매수" →
      holdingStep acc t = (acc.1 + t.quantity, acc.2 + t.total_amount)) ∧
    (t.transaction_type = "매도" →
      holdingStep acc t = (acc.1 - t.quantity, acc.2 - t.total_amount)) ∧
    (0 < q → averageBuyPrice q c = c / (q : ℚ)) ∧
    (q ≤ 0 → averageBuyPrice q c = 0) ∧
    (0 < (holdingTotals (transactionsFor uid sid table)).1 →
      (update_stock_holding_detail uid sid tk table ex).map
          (fun d => (d.holding_quantity, d.average_buy_price, d.total_buy_amount)) =
        some ((holdingTotals (transactionsFor uid sid table)).1,
              averageBuyPrice (holdingTotals (transactionsFor uid sid table)).1
                (holdingTotals (transactionsFor uid sid table)).2,
              (holdingTotals (transactionsFor uid sid table)).2)) ∧
    (holdingTotals scenarioTxns = (15, 1550) ∧
      averageBuyPrice 15 1550 = 310 / 3 ∧
      ⌊averageBuyPrice 15 1550 * 100⌋ = 10333 ∧
      update_stock_holding_detail 1 1 "AAPL" scenarioTxns none =
        some { user_id := 1, stock_info_id := 1, ticker := "AAPL",
               holding_quantity := 15, average_buy_price := 310 / 3,
               total_buy_amount := 1550 }) := by
  refine ⟨?_, ?_, ?_, ?_, ?_, ?_⟩
  · intro h; simp [holdingStep, h]
  · intro h
    by_cases hb : t.transaction_type = "매수"
    · rw [hb] at h; exact absurd h (by decide)
    · simp [holdingStep, hb, h]
  · intro h; simp [averageBuyPrice, h]
  · intro h; simp [averageBuyPrice, not_lt.mpr h]
  · intro h
    simp only [update_stock_holding_detail, not_le.mpr h, if_neg (not_le.mpr h)]
    cases ex <;> simp
  · refine ⟨?_, ?_, ?_, ?_⟩
    · norm_num [holdingTotals, scenarioTxns, holdingStep, sell_ne_buy]
    · norm_num [averageBuyPrice]
    · rw [show averageBuyPrice 15 1550 * 100 = 10333 + 1 / 3 by
        norm_num [averageBuyPrice]]
      rw [Int.floor_eq_iff]
      constructor <;> norm_num
    · norm_num [update_stock_holding_detail, transactionsFor, scenarioTxns,
        holdingTotals, holdingStep, averageBuyPrice, sell_ne_buy]

/-- C1 witness: the fold and average equations instantiated at the concrete
scenario transactions. -/
theorem holding_recompute_matches_fold_witness :
    holdingStep (0, 0)
        { user_id := 1, stock_info_id := 1, ticker := "AAPL",
          transaction_type := "매수", quantity := 10, total_amount := 1000 } = (10, 1000) ∧
    holdingStep (20, 2200)
        { user_id := 1, stock_info_id := 1, ticker := "AAPL",
          transaction_type := "매도", quantity := 5, total_amount := 650 } = (15, 1550) ∧
    averageBuyPrice 15 1550 = 1550 / (15 : ℚ) ∧
    averageBuyPrice 0 1550 = 0 ∧
    (update_stock_holding_detail 1 1 "AAPL" scenarioTxns none).map
        (fun d => (d.holding_quantity, d.average_buy_price, d.total_buy_amount)) =
      some (15, averageBuyPrice 15 1550, 1550) := by
  have h := holding_recompute_matches_fold (0, 0)
    { user_id := 1, stock_info_id := 1, ticker := "AAPL",
      transaction_type := "매수", quantity := 10, total_amount := 1000 }
    15 1550 1 1 "AAPL" scenarioTxns none
  have h2 := holding_recompute_matches_fold (20, 2200)
    { user_id := 1, stock_info_id := 1, ticker := "AAPL",
      transaction_type := "매도", quantity := 5, total_amount := 650 }
    0 1550 1 1 "AAPL" scenarioTxns none
  have e1 := h.1 rfl
  have e2 := h2.2.1 rfl
  have e3 := h.2.2.1 (by decide)
  have e4 := h2.2.2.2.1 (by decide)
  have hq : 0 < (holdingTotals (transactionsFor 1 1 scenarioTxns)).1 := by
    norm_num [holdingTotals, transactionsFor, scenarioTxns, holdingStep, sell_ne_buy]
  have e5 := h.2.2.2.2.1 hq
  refine ⟨?_, ?_, ?_, e4, ?_⟩
  · rw [e1]; norm_num
  · rw [e2]; norm_num
  · rw [e3]; norm_num
  · rw [e5]
    have ht : holdingTotals (transactionsFor 1 1 scenarioTxns) = (15, 1550) := by
      norm_num [holdingTotals, transactionsFor, scenarioTxns, holdingStep, sell_ne_buy]
    rw [ht]

/-- C2: whenever the recomputed net quantity is ≤ 0, the holding row is
absent after the recomputation, whatever row (or no row) existed before;
the function is total, so deleting when no row exists is not an error. -/
theorem holding_deleted_when_nonpositive
    (uid sid : Int) (tk : String) (table : List StockTransaction)
    (ex : Option StockHoldingDetail)
    (h : (holdingTotals (transactionsFor uid sid table)).1 ≤ 0) :
    update_stock_holding_detail uid sid tk table ex = none := by
  simp [update_stock_holding_detail, h]

/-- C2 witness: a single sell of 5 shares leaves a net quantity of -5, and
the recomputation returns no row, both when a stale row existed and when
none did. -/
theorem holding_deleted_when_nonpositive_witness :
    update_stock_holding_detail 1 1 "AAPL"
        [ { user_id := 1, stock_info_id := 1, ticker := "AAPL",
            transaction_type := "매도", quantity := 5, total_amount := 650 } ]
        (some { user_id := 1, stock_info_id := 1, ticker := "AAPL",
                holding_quantity := 5, average_buy_price := 100,
                total_buy_amount := 500 }) = none ∧
    update_stock_holding_detail 1 1 "AAPL"
        [ { user_id := 1, stock_info_id := 1, ticker := "AAPL",
            transaction_type := "매도", quantity := 5, total_amount := 650 } ]
        none = none := by
  constructor
  · exact holding_deleted_when_nonpositive 1 1 "AAPL" _ _ (by decide)
  · exact holding_deleted_when_nonpositive 1 1 "AAPL" _ _ (by decide)

/-- C4: the recomputation is idempotent. Running it a second time on the
same transaction table, starting from the row state the first run left,
yields exactly the same row state (all modelled fields equal); the
wall-clock `updated_at` is outside the embedding. -/
theorem recompute_idempotent
    (uid sid : Int) (tk : String) (table : List StockTransaction)
    (ex : Option StockHoldingDetail) :
    update_stock_holding_detail uid sid tk table
        (update_stock_holding_detail uid sid tk table ex) =
      update_stock_holding_detail uid sid tk table ex := by
  simp only [update_stock_holding_detail]
  by_cases h : (holdingTotals (transactionsFor uid sid table)).1 ≤ 0
  · simp [h]
  · cases ex <;> simp [h]

theorem time_mem_stored_of_mem_map (si : List StockInfo) (sid : Int) (l : List PriceRow)
    (x : PriceRow) (hx : x ∈ l) :
    x.time ∈ storedTimesFor ⟨si, l.map (toStockPrice sid)⟩ sid :=
  List.mem_map.mpr ⟨toStockPrice sid x,
    List.mem_filter.mpr ⟨List.mem_map_of_mem _ hx, by simp [toStockPrice]⟩, rfl⟩

theorem insertPricesUnique_ok (new : List StockPrice) :
    ∀ existing : List StockPrice,
      (new.map (fun p => (p.stock_info_id, p.time))).Nodup →
      (∀ p ∈ new, ∀ q ∈ existing,
        ¬(q.stock_info_id = p.stock_info_id ∧ q.time = p.time)) →
      insertPricesUnique existing new = some (existing ++ new) := by
  induction new with
  | nil =>
      intro existing _ _
      simp [insertPricesUnique]
  | cons p rest ih =>
      intro existing h1 h2
      rw [insertPricesUnique]
      have hc : existing.any
          (fun q => q.stock_info_id == p.stock_info_id && q.time == p.time) = false := by
        rw [List.any_eq_false]
        intro q hq hqq
        simp only [Bool.and_eq_true, beq_iff_eq] at hqq
        exact h2 p (List.mem_cons_self _ _) q hq ⟨hqq.1, hqq.2⟩
      rw [hc]
      simp only [Bool.false_eq_true, if_false]
      rw [List.map_cons, List.nodup_cons] at h1
      have hside : ∀ x ∈ rest, ∀ q ∈ existing ++ [p],
          ¬(q.stock_info_id = x.stock_info_id ∧ q.time = x.time) := by
        intro x hx q hq hcon
        rcases List.mem_append.mp hq with hq2 | hq2
        · exact h2 x (List.mem_cons_of_mem _ hx) q hq2 hcon
        · have hqp : q = p := by simpa using hq2
          apply h1.1
          rw [show (p.stock_info_id, p.time) = (x.stock_info_id, x.time) from by
            rw [← hqp, hcon.1, hcon.2]]
          exact List.mem_map_of_mem _ hx
      rw [ih (existing ++ [p]) h1.2 hside]
      simp

/-- C3: `upsert_prices` adds exactly the input rows whose timestamp is not
already stored for the owning StockInfo (the code checks the stored
timestamps only inside the min/max range the input spans, and every input
timestamp lies in that range, so the restriction is invisible), commits
without tripping the stockprice (stock_info_id, time) unique constraint —
the added timestamps are pairwise distinct and fresh — and returns the
count of rows actually inserted; an immediate second call with the same
rows inserts and returns 0, leaving the state unchanged. -/
theorem upsert_prices_dedup
    (db : DB) (tk : String) (nm mk : Option String) (cur : String)
    (records : List PriceRow)
    (hnd : (records.map PriceRow.time).Nodup) :
    upsert_stocks_from_dataframe db tk nm mk cur records =
      .ok ((records.filter (fun x =>
          !((storedTimesFor db
              (get_or_create_stock_info db tk nm mk cur).1.id).contains x.time))).length,
        { (get_or_create_stock_info db tk nm mk cur).2 with
          prices := (get_or_create_stock_info db tk nm mk cur).2.prices ++
            (records.filter (fun x =>
              !((storedTimesFor db
                  (get_or_create_stock_info db tk nm mk cur).1.id).contains x.time))).map
              (toStockPrice (get_or_create_stock_info db tk nm mk cur).1.id) }) ∧
    (get_or_create_stock_info db tk nm mk cur).2.prices = db.prices ∧
    upsert_stocks_from_dataframe
        ({ (get_or_create_stock_info db tk nm mk cur).2 with
           prices := (get_or_create_stock_info db tk nm mk cur).2.prices ++
             (records.filter (fun x =>
               !((storedTimesFor db
                   (get_or_create_stock_info db tk nm mk cur).1.id).contains x.time))).map
               (toStockPrice (get_or_create_stock_info db tk nm mk cur).1.id) } : DB)
        tk nm mk cur records =
      .ok (0,
        { (get_or_create_stock_info db tk nm mk cur).2 with
          prices := (get_or_create_stock_info db tk nm mk cur).2.prices ++
            (records.filter (fun x =>
              !((storedTimesFor db
                  (get_or_create_stock_info db tk nm mk cur).1.id).contains x.time))).map
              (toStockPrice (get_or_create_stock_info db tk nm mk cur).1.id) }) := by
  have hpr := get_or_create_stockInfos_keeps db tk nm mk cur
  have hbatchkeys : ∀ l : List PriceRow, (l.map PriceRow.time).Nodup →
      ((l.map (toStockPrice (get_or_create_stock_info db tk nm mk cur).1.id)).map
        (fun p => (p.stock_info_id, p.time))).Nodup := by
    intro l hl
    rw [List.map_map]
    rw [show ((fun p : StockPrice => (p.stock_info_id, p.time)) ∘
        toStockPrice (get_or_create_stock_info db tk nm mk cur).1.id) =
      ((fun t : Int => ((get_or_create_stock_info db tk nm mk cur).1.id, t)) ∘
        PriceRow.time) from rfl]
    rw [← List.map_map]
    apply List.Nodup.map
    · intro a b hab
      simpa using hab
    · exact hl
  have hfresh : ∀ l : List PriceRow,
      l = records.filter (fun x =>
        !((storedTimesFor db
            (get_or_create_stock_info db tk nm mk cur).1.id).contains x.time)) →
      ∀ p ∈ l.map (toStockPrice (get_or_create_stock_info db tk nm mk cur).1.id),
      ∀ q ∈ (get_or_create_stock_info db tk nm mk cur).2.prices,
        ¬(q.stock_info_id = p.stock_info_id ∧ q.time = p.time) := by
    intro l hldef p hp q hq hcon
    obtain ⟨x, hx, rfl⟩ := List.mem_map.mp hp
    rw [hldef] at hx
    have hxf := List.mem_filter.mp hx
    have hmem : x.time ∈ storedTimesFor
        (get_or_create_stock_info db tk nm mk cur).2
        (get_or_create_stock_info db tk nm mk cur).1.id :=
      List.mem_map.mpr ⟨q, List.mem_filter.mpr ⟨hq, by
        simp only [toStockPrice] at hcon
        simp [hcon.1]⟩, hcon.2⟩
    rw [storedTimesFor_congr _ db _ hpr] at hmem
    have hcontra := hxf.2
    rw [Bool.not_eq_true', Bool.eq_false_iff] at hcontra
    exact hcontra (List.elem_iff.mpr hmem)
  have hnd2 : ((records.filter (fun x =>
      !((storedTimesFor db
          (get_or_create_stock_info db tk nm mk cur).1.id).contains x.time))).map
      PriceRow.time).Nodup :=
    hnd.sublist (List.Sublist.map PriceRow.time (List.filter_sublist records))
  have hok := insertPricesUnique_ok
    ((records.filter (fun x =>
      !((storedTimesFor db
          (get_or_create_stock_info db tk nm mk cur).1.id).contains x.time))).map
      (toStockPrice (get_or_create_stock_info db tk nm mk cur).1.id))
    (get_or_create_stock_info db tk nm mk cur).2.prices
    (hbatchkeys _ hnd2) (hfresh _ rfl)
  refine ⟨?_, hpr, ?_⟩
  · cases records with
    | nil =>
        simp [upsert_stocks_from_dataframe]
    | cons r rs =>
        rw [upsert_cons_eq, hok]
  · cases records with
    | nil =>
        simp only [List.filter_nil, List.map_nil, List.append_nil]
        have hstable : get_or_create_stock_info
            ({ (get_or_create_stock_info db tk nm mk cur).2 with
               prices := (get_or_create_stock_info db tk nm mk cur).2.prices } : DB)
            tk nm mk cur =
            ((get_or_create_stock_info db tk nm mk cur).1,
             { (get_or_create_stock_info db tk nm mk cur).2 with
               prices := (get_or_create_stock_info db tk nm mk cur).2.prices }) := by
          apply get_or_create_stable
          exact get_or_create_find_self db tk nm mk cur
        simp only [upsert_stocks_from_dataframe]
        rw [hstable]
    | cons r rs =>
        have hstable : get_or_create_stock_info
            ({ (get_or_create_stock_info db tk nm mk cur).2 with
               prices := (get_or_create_stock_info db tk nm mk cur).2.prices ++
                 ((r :: rs).filter (fun x =>
                   !((storedTimesFor db
                       (get_or_create_stock_info db tk nm mk cur).1.id).contains
                     x.time))).map
                   (toStockPrice (get_or_create_stock_info db tk nm mk cur).1.id) } : DB)
            tk nm mk cur =
            ((get_or_create_stock_info db tk nm mk cur).1,
             { (get_or_create_stock_info db tk nm mk cur).2 with
               prices := (get_or_create_stock_info db tk nm mk cur).2.prices ++
                 ((r :: rs).filter (fun x =>
                   !((storedTimesFor db
                       (get_or_create_stock_info db tk nm mk cur).1.id).contains
                     x.time))).map
                   (toStockPrice (get_or_create_stock_info db tk nm mk cur).1.id) }) := by
          apply get_or_create_stable
          exact get_or_create_find_self db tk nm mk cur
        rw [upsert_cons_eq, hstable]
        have hnil : (r :: rs).filter (fun x =>
            !((storedTimesFor
                ({ (get_or_create_stock_info db tk nm mk cur).2 with
                   prices := (get_or_create_stock_info db tk nm mk cur).2.prices ++
                     ((r :: rs).filter (fun y =>
                       !((storedTimesFor db
                           (get_or_create_stock_info db tk nm mk cur).1.id).contains
                         y.time))).map
                       (toStockPrice (get_or_create_stock_info db tk nm mk cur).1.id) } :
                  DB)
                (get_or_create_stock_info db tk nm mk cur).1.id).contains x.time)) =
            [] := by
          rw [List.filter_eq_nil_iff]
          intro x hx
          simp only [Bool.not_eq_true', Bool.not_eq_false]
          apply List.elem_iff.mpr
          rw [show ({ (get_or_create_stock_info db tk nm mk cur).2 with
                 prices := (get_or_create_stock_info db tk nm mk cur).2.prices ++
                   ((r :: rs).filter (fun y =>
                     !((storedTimesFor db
                         (get_or_create_stock_info db tk nm mk cur).1.id).contains
                       y.time))).map
                     (toStockPrice (get_or_create_stock_info db tk nm mk cur).1.id) } :
              DB) =
              ⟨(get_or_create_stock_info db tk nm mk cur).2.stockInfos,
               (get_or_create_stock_info db tk nm mk cur).2.prices ++
                 ((r :: rs).filter (fun y =>
                   !((storedTimesFor db
                       (get_or_create_stock_info db tk nm mk cur).1.id).contains
                     y.time))).map
                   (toStockPrice (get_or_create_stock_info db tk nm mk cur).1.id)⟩
            from rfl]
          rw [storedTimesFor_append]
          by_cases hxin : (storedTimesFor db
              (get_or_create_stock_info db tk nm mk cur).1.id).contains x.time
          · apply List.mem_append_left
            have hmem := List.elem_iff.mp hxin
            have heqs : storedTimesFor
                ⟨(get_or_create_stock_info db tk nm mk cur).2.stockInfos,
                 (get_or_create_stock_info db tk nm mk cur).2.prices⟩
                (get_or_create_stock_info db tk nm mk cur).1.id =
                storedTimesFor db (get_or_create_stock_info db tk nm mk cur).1.id := by
              apply storedTimesFor_congr
              exact hpr
            rw [heqs]
            exact hmem
          · apply List.mem_append_right
            apply time_mem_stored_of_mem_map
            rw [List.mem_filter]
            refine ⟨hx, ?_⟩
            rw [Bool.eq_false_iff.mpr hxin]
            rfl
        rw [hnil]
        rfl

/-- C3 witness: on an empty database two rows with distinct timestamps are
both inserted (count 2, no error), and re-running the same call then
inserts 0. -/
theorem upsert_prices_dedup_witness :
    (upsert_stocks_from_dataframe ⟨[], []⟩ "T" none none "USD"
        [⟨10, some 1, none, none, some 2, none, none, none, none, 5⟩,
         ⟨20, some 3, none, none, some 4, none, none, none, none, 6⟩]).map Prod.fst =
      .ok 2 ∧
    ((upsert_stocks_from_dataframe ⟨[], []⟩ "T" none none "USD"
        [⟨10, some 1, none, none, some 2, none, none, none, none, 5⟩,
         ⟨20, some 3, none, none, some 4, none, none, none, none, 6⟩]).bind
      (fun x => upsert_stocks_from_dataframe x.2 "T" none none "USD"
        [⟨10, some 1, none, none, some 2, none, none, none, none, 5⟩,
         ⟨20, some 3, none, none, some 4, none, none, none, none, 6⟩])).map Prod.fst =
      .ok 0 := by
  have h := upsert_prices_dedup ⟨[], []⟩ "T" none none "USD"
    [⟨10, some 1, none, none, some 2, none, none, none, none, 5⟩,
     ⟨20, some 3, none, none, some 4, none, none, none, none, 6⟩] (by decide)
  constructor
  · rw [h.1]
    rfl
  · rw [h.1]
    simp only [Except.bind]
    rw [h.2.2]
    rfl

/-- C10 counterexample: the claim says a batch holding two rows at the same
not-yet-stored timestamp gets both rows inserted and both counted. The
stockprice (stock_info_id, time) unique constraint
`uq_stock_price_stock_info_id_time` fires at commit instead: on an empty
database the call raises IntegrityError, returning no count and persisting
neither row. -/
theorem upsert_inbatch_duplicates_counterexample :
    upsert_stocks_from_dataframe ⟨[], []⟩ "T" none none "USD"
        [⟨10, some 1, none, none, some 2, none, none, none, none, 5⟩,
         ⟨10, some 7, none, none, some 8, none, none, none, none, 9⟩] =
      .error "IntegrityError: uq_stock_price_stock_info_id_time" := rfl

/-- C10 (amended): deduplication consults only the timestamps stored before
the call, so two batch rows sharing a fresh timestamp both pass the dedup
filter and are both added and counted; committing them then violates the
stockprice (stock_info_id, time) unique constraint, so the call raises
IntegrityError — it returns no count and persists neither row. -/
theorem upsert_inbatch_duplicates
    (db : DB) (tk : String) (nm mk : Option String) (cur : String)
    (r1 r2 : PriceRow) (heq : r2.time = r1.time)
    (hnew : r1.time ∉
      storedTimesFor db (get_or_create_stock_info db tk nm mk cur).1.id) :
    ([r1, r2] : List PriceRow).filter (fun x =>
        !((storedTimesFor db
            (get_or_create_stock_info db tk nm mk cur).1.id).contains x.time)) =
      [r1, r2] ∧
    upsert_stocks_from_dataframe db tk nm mk cur [r1, r2] =
      .error "IntegrityError: uq_stock_price_stock_info_id_time" := by
  have hpr := get_or_create_stockInfos_keeps db tk nm mk cur
  have hfilter : ([r1, r2] : List PriceRow).filter (fun x =>
      !((storedTimesFor db
          (get_or_create_stock_info db tk nm mk cur).1.id).contains x.time)) =
      [r1, r2] := by
    simp [List.filter, heq, decide_eq_false hnew]
  refine ⟨hfilter, ?_⟩
  rw [upsert_cons_eq, hfilter]
  have hstep : insertPricesUnique (get_or_create_stock_info db tk nm mk cur).2.prices
      (([r1, r2] : List PriceRow).map
        (toStockPrice (get_or_create_stock_info db tk nm mk cur).1.id)) = none := by
    simp only [List.map_cons, List.map_nil]
    rw [insertPricesUnique]
    have hc1 : (get_or_create_stock_info db tk nm mk cur).2.prices.any
        (fun q => q.stock_info_id ==
            (toStockPrice (get_or_create_stock_info db tk nm mk cur).1.id
              r1).stock_info_id &&
          q.time ==
            (toStockPrice (get_or_create_stock_info db tk nm mk cur).1.id r1).time) =
        false := by
      rw [List.any_eq_false]
      intro q hq hqq
      simp only [Bool.and_eq_true, beq_iff_eq, toStockPrice] at hqq
      apply hnew
      rw [← storedTimesFor_congr _ db _ hpr]
      exact List.mem_map.mpr ⟨q, List.mem_filter.mpr ⟨hq, by simp [hqq.1]⟩, hqq.2⟩
    rw [hc1]
    simp only [Bool.false_eq_true, if_false]
    rw [insertPricesUnique]
    have hc2 : ((get_or_create_stock_info db tk nm mk cur).2.prices ++
        [toStockPrice (get_or_create_stock_info db tk nm mk cur).1.id r1]).any
        (fun q => q.stock_info_id ==
            (toStockPrice (get_or_create_stock_info db tk nm mk cur).1.id
              r2).stock_info_id &&
          q.time ==
            (toStockPrice (get_or_create_stock_info db tk nm mk cur).1.id r2).time) =
        true := by
      apply List.any_eq_true.mpr
      refine ⟨toStockPrice (get_or_create_stock_info db tk nm mk cur).1.id r1,
        List.mem_append_right _ (List.mem_cons_self _ _), ?_⟩
      simp [toStockPrice, heq]
    rw [hc2]
    rfl
  rw [hstep]

/-- C10 witness: two rows at the same fresh timestamp 10 on an empty
database both pass the dedup filter and the call raises the unique
constraint error. -/
theorem upsert_inbatch_duplicates_witness :
    ([⟨10, some 1, none, none, some 2, none, none, none, none, 5⟩,
      ⟨10, some 7, none, none, some 8, none, none, none, none, 9⟩] :
        List PriceRow).filter (fun x =>
      !((storedTimesFor ⟨[], []⟩
          (get_or_create_stock_info ⟨[], []⟩ "T" none none "USD").1.id).contains
        x.time)) =
      [⟨10, some 1, none, none, some 2, none, none, none, none, 5⟩,
       ⟨10, some 7, none, none, some 8, none, none, none, none, 9⟩] ∧
    upsert_stocks_from_dataframe ⟨[], []⟩ "T" none none "USD"
        [⟨10, some 1, none, none, some 2, none, none, none, none, 5⟩,
         ⟨10, some 7, none, none, some 8, none, none, none, none, 9⟩] =
      .error "IntegrityError: uq_stock_price_stock_info_id_time" :=
  upsert_inbatch_duplicates ⟨[], []⟩ "T" none none "USD" _ _ rfl (by decide)


theorem mem_eraseP_of_nodup_ids (l : List StockInfo) (sid : Int)
    (hid : (l.map StockInfo.id).Nodup) (s2 : StockInfo) :
    s2 ∈ l.eraseP (fun s => s.id == sid) ↔ s2 ∈ l ∧ s2.id ≠ sid := by
  induction l with
  | nil => simp
  | cons h t ih =>
      rw [List.map_cons, List.nodup_cons] at hid
      by_cases hh : h.id = sid
      · rw [List.eraseP_cons_of_pos (by simp [hh])]
        constructor
        · intro hm
          refine ⟨List.mem_cons_of_mem _ hm, ?_⟩
          intro he
          exact hid.1 (hh ▸ he ▸ List.mem_map_of_mem StockInfo.id hm)
        · rintro ⟨hm, hne⟩
          rcases List.mem_cons.mp hm with rfl | hm2
          · exact absurd hh hne
          · exact hm2
      · rw [List.eraseP_cons_of_neg (by simp [hh])]
        constructor
        · intro hm
          rcases List.mem_cons.mp hm with rfl | hm2
          · exact ⟨List.mem_cons_self _ _, hh⟩
          · have h2 := (ih hid.2).mp hm2
            exact ⟨List.mem_cons_of_mem _ h2.1, h2.2⟩
        · rintro ⟨hm, hne⟩
          rcases List.mem_cons.mp hm with rfl | hm2
          · exact List.mem_cons_self _ _
          · exact List.mem_cons_of_mem _ ((ih hid.2).mpr ⟨hm2, hne⟩)

/-- C9: deleting a StockInfo by id removes exactly its StockPrice rows and
then the StockInfo row itself, leaving every other StockInfo and every
StockPrice of other StockInfos in place; afterwards lookups of that stock by
id or by its ticker return not-found; deleting an absent id reports failure
with no state change. The uniqueness hypotheses are the primary-key and
unique-ticker constraints of the stockinfo table. -/
theorem delete_stock_info_cascades
    (db : DB) (sid : Int)
    (hid : (db.stockInfos.map StockInfo.id).Nodup)
    (htk : (db.stockInfos.map StockInfo.ticker).Nodup) :
    (∀ s, get_stock_info db sid = some s →
      (delete_stock_info db sid).1 = true ∧
      (delete_stock_info db sid).2.prices =
        db.prices.filter (fun p => !(p.stock_info_id == sid)) ∧
      (∀ p, p ∈ (delete_stock_info db sid).2.prices ↔
        p ∈ db.prices ∧ p.stock_info_id ≠ sid) ∧
      (∀ s2, s2 ∈ (delete_stock_info db sid).2.stockInfos ↔
        s2 ∈ db.stockInfos ∧ s2.id ≠ sid) ∧
      get_stock_info (delete_stock_info db sid).2 sid = none ∧
      get_stock_info_by_ticker (delete_stock_info db sid).2 s.ticker = none) ∧
    (get_stock_info db sid = none → delete_stock_info db sid = (false, db)) := by
  constructor
  · intro s hs
    have hfind : db.stockInfos.find? (fun x => x.id == sid) = some s := hs
    have hdel : delete_stock_info db sid =
        (true, ⟨db.stockInfos.eraseP (fun x => x.id == sid),
                db.prices.filter (fun p => !(p.stock_info_id == sid))⟩) := by
      unfold delete_stock_info
      rw [hfind]
    have hsmem : s ∈ db.stockInfos := List.mem_of_find?_eq_some hfind
    have hsid : s.id = sid := by
      have := List.find?_some hfind
      simpa using this
    refine ⟨by rw [hdel], by rw [hdel], ?_, ?_, ?_, ?_⟩
    · intro p
      rw [hdel]
      simp [List.mem_filter]
    · intro s2
      rw [hdel]
      exact mem_eraseP_of_nodup_ids db.stockInfos sid hid s2
    · rw [hdel]
      unfold get_stock_info
      rw [List.find?_eq_none]
      intro x hx
      have hx2 := (mem_eraseP_of_nodup_ids db.stockInfos sid hid x).mp hx
      simp [hx2.2]
    · rw [hdel]
      unfold get_stock_info_by_ticker
      rw [List.find?_eq_none]
      intro x hx
      have hx2 := (mem_eraseP_of_nodup_ids db.stockInfos sid hid x).mp hx
      simp only [beq_iff_eq]
      intro hteq
      have hxs : x = s := List.inj_on_of_nodup_map htk hx2.1 hsmem hteq
      exact hx2.2 (hxs ▸ hsid)
  · intro hn
    unfold delete_stock_info
    rw [show db.stockInfos.find? (fun x => x.id == sid) = none from hn]

/-- C9 witness: in a two-stock database, deleting stock 1 succeeds, its
lookups by id and ticker go not-found, and deleting the absent id 5 on an
empty database fails without changing state. -/
theorem delete_stock_info_cascades_witness :
    (delete_stock_info ⟨[⟨1, "A", none, none, "USD"⟩, ⟨2, "B", none, none, "USD"⟩],
        []⟩ 1).1 = true ∧
    get_stock_info
      (delete_stock_info ⟨[⟨1, "A", none, none, "USD"⟩, ⟨2, "B", none, none, "USD"⟩],
          []⟩ 1).2 1 = none ∧
    get_stock_info_by_ticker
      (delete_stock_info ⟨[⟨1, "A", none, none, "USD"⟩, ⟨2, "B", none, none, "USD"⟩],
          []⟩ 1).2 "A" = none ∧
    delete_stock_info ⟨[], []⟩ 5 = (false, ⟨[], []⟩) := by
  have h := delete_stock_info_cascades
    ⟨[⟨1, "A", none, none, "USD"⟩, ⟨2, "B", none, none, "USD"⟩], []⟩ 1
    (by decide) (by decide)
  have hf : get_stock_info
      ⟨[⟨1, "A", none, none, "USD"⟩, ⟨2, "B", none, none, "USD"⟩], []⟩ 1 =
      some ⟨1, "A", none, none, "USD"⟩ := by decide
  have h1 := h.1 ⟨1, "A", none, none, "USD"⟩ hf
  have h2 := (delete_stock_info_cascades ⟨[], []⟩ 5 (by decide) (by decide)).2 (by decide)
  exact ⟨h1.1, h1.2.2.2.2.1, h1.2.2.2.2.2, h2⟩

theorem buildRow_flat_eq (cols : List (String × List Cell)) (auto : Bool) (tk : String)
    (nm mk : Option String) (cur : String) (i : Nat) (t : Timestamp) (prev : Cell) :
    buildRow (.flat cols) auto tk nm mk cur i t prev =
      .ok (buildRowFlat cols auto tk nm mk cur i t prev) := rfl

theorem adapterRows_flat_eq (cols : List (String × List Cell)) (auto : Bool) (tk : String)
    (nm mk : Option String) (cur : String) (rows : List (Nat × Timestamp)) :
    ∀ prev : Cell,
      adapterRows (.flat cols) auto tk nm mk cur rows prev =
        .ok (flatRecords cols auto tk nm mk cur rows prev) := by
  induction rows with
  | nil => intro prev; rfl
  | cons p rest ih =>
      intro prev
      obtain ⟨i, t⟩ := p
      rw [adapterRows, flatRecords, buildRow_flat_eq]
      simp only [Bind.bind, Except.bind, ih]
      rfl

theorem df_to_stockbase_flat (idx : List Timestamp) (cols : List (String × List Cell))
    (tk : String) (nm mk : Option String) (cur : String) (auto : Bool) (tz : Int) :
    df_to_stockbase ⟨idx, .flat cols⟩ tk nm mk cur auto tz =
      .ok (flatRecords (renameFlat cols) auto tk nm mk cur
        ((idx.map (fun t => normalizeIndex t tz)).enum) none) :=
  adapterRows_flat_eq (renameFlat cols) auto tk nm mk cur _ none

theorem flatRecords_length (cols : List (String × List Cell)) (auto : Bool) (tk : String)
    (nm mk : Option String) (cur : String) (rows : List (Nat × Timestamp)) :
    ∀ prev : Cell,
      (flatRecords cols auto tk nm mk cur rows prev).length = rows.length := by
  induction rows with
  | nil => intro prev; rfl
  | cons p rest ih =>
      intro prev
      obtain ⟨i, t⟩ := p
      rw [flatRecords]
      simp only [List.length_cons, ih]

theorem flatRecords_head_prev (cols : List (String × List Cell)) (auto : Bool)
    (tk : String) (nm mk : Option String) (cur : String) (rows : List (Nat × Timestamp))
    (prev : Cell) (r : StockBase)
    (h : (flatRecords cols auto tk nm mk cur rows prev).get? 0 = some r) :
    r.previous_close = prev := by
  cases rows with
  | nil => simp [flatRecords] at h
  | cons p rest =>
      obtain ⟨i, t⟩ := p
      rw [flatRecords] at h
      simp only [List.get?_cons_zero, Option.some.injEq] at h
      rw [← h]
      rfl

theorem flatRecords_chain (cols : List (String × List Cell)) (auto : Bool) (tk : String)
    (nm mk : Option String) (cur : String) (rows : List (Nat × Timestamp)) :
    ∀ (prev : Cell) (k : Nat) (r r2 : StockBase),
      (flatRecords cols auto tk nm mk cur rows prev).get? k = some r →
      (flatRecords cols auto tk nm mk cur rows prev).get? (k + 1) = some r2 →
      r2.previous_close = (match r.close with
        | some cl => some cl
        | none => r.previous_close) := by
  induction rows with
  | nil => intro prev k r r2 h; simp [flatRecords] at h
  | cons p rest ih =>
      intro prev k r r2 h h2
      obtain ⟨i, t⟩ := p
      rw [flatRecords] at h h2
      cases k with
      | zero =>
          simp only [List.get?_cons_zero, Option.some.injEq] at h
          simp only [List.get?_cons_succ] at h2
          have hp := flatRecords_head_prev cols auto tk nm mk cur rest _ r2 h2
          subst h
          rw [hp]
          cases hcl : (buildRowFlat cols auto tk nm mk cur i t prev).close with
          | none => rfl
          | some cl => rfl
      | succ k2 =>
          simp only [List.get?_cons_succ] at h h2
          exact ih _ k2 r r2 h h2

theorem flatRecords_laws (cols : List (String × List Cell)) (auto : Bool) (tk : String)
    (nm mk : Option String) (cur : String) (rows : List (Nat × Timestamp)) :
    ∀ (prev : Cell) (r : StockBase), r ∈ flatRecords cols auto tk nm mk cur rows prev →
      r.change = (match r.previous_close, r.close with
        | some p, some cl => some (cl - p)
        | _, _ => none) ∧
      r.change_percent = (match r.previous_close, r.close with
        | some p, some cl => if p = 0 then none else some ((cl - p) / p * 100)
        | _, _ => none) := by
  induction rows with
  | nil => intro prev r h; simp [flatRecords] at h
  | cons p rest ih =>
      intro prev r h
      obtain ⟨i, t⟩ := p
      rw [flatRecords] at h
      rcases List.mem_cons.mp h with rfl | h2
      · exact ⟨rfl, rfl⟩
      · exact ih _ r h2

theorem flatRecords_fields (cols : List (String × List Cell)) (auto : Bool) (tk : String)
    (nm mk : Option String) (cur : String) (rows : List (Nat × Timestamp)) :
    ∀ (prev : Cell) (k : Nat) (r : StockBase),
      (flatRecords cols auto tk nm mk cur rows prev).get? k = some r →
      ∃ p, rows.get? k = some p ∧
        r.«open» = flatCell cols "open" p.1 ∧
        r.high = flatCell cols "high" p.1 ∧
        r.low = flatCell cols "low" p.1 ∧
        r.close = flatCell cols "close" p.1 ∧
        r.time = p.2 ∧
        r.adjusted_close = (if auto then flatCell cols "close" p.1
          else readAdjClose (.flat cols) p.1 auto) ∧
        r.volume = (match flatCell cols "volume" p.1 with
          | some q => ratToInt q
          | none => 0) ∧
        r.ticker = tk ∧ r.name = nm ∧ r.market = mk ∧ r.currency = cur := by
  induction rows with
  | nil => intro prev k r h; simp [flatRecords] at h
  | cons p rest ih =>
      intro prev k r h
      obtain ⟨i, t⟩ := p
      rw [flatRecords] at h
      cases k with
      | zero =>
          simp only [List.get?_cons_zero, Option.some.injEq] at h
          refine ⟨(i, t), rfl, ?_⟩
          rw [← h]
          exact ⟨rfl, rfl, rfl, rfl, rfl, rfl, rfl, rfl, rfl, rfl, rfl⟩
      | succ k2 =>
          simp only [List.get?_cons_succ] at h
          obtain ⟨q, hq, hrest⟩ := ih _ k2 r h
          exact ⟨q, by simpa using hq, hrest⟩

/-- C5 counterexample: the claim says a record's previous_close is the close
of the immediately preceding input row and that change/change_percent are
absent whenever previous_close is absent or zero. In the code the previous
close is carried over rows whose close is NaN: with closes
[100, NaN, 110] the third record gets previous_close 100, not the absent
close of its predecessor. And with closes [0, 5] the second record gets
previous_close 0 with change 5 present (only change_percent is suppressed
at zero). -/
theorem adapter_previous_close_counterexample :
    (df_to_stockbase ⟨[⟨0, some 0⟩, ⟨60, some 0⟩, ⟨120, some 0⟩],
        .flat [("Close", [some 100, none, some 110])]⟩ "T" none none "USD" true 0).map
      (fun rs => rs.map StockBase.previous_close) = .ok [none, some 100, some 100] ∧
    (df_to_stockbase ⟨[⟨0, some 0⟩, ⟨60, some 0⟩],
        .flat [("Close", [some 0, some 5])]⟩ "T" none none "USD" true 0).map
      (fun rs => rs.map (fun r => (r.previous_close, r.change, r.change_percent))) =
      .ok [(none, none, none), (some 0, some 5, none)] :=
  ⟨rfl, by with_unfolding_all rfl⟩

/-- C5 (amended): on a flat input table the adapter produces one record per
row with previous_close carrying the most recent non-absent close (absent
for the first row and until a close has been seen): the first record's
previous_close is absent and each next record's previous_close is the
previous record's close when present, else the previous record's own
previous_close; change = close - previous_close is present exactly when
both close and previous_close are present (also when previous_close is 0);
change_percent = change / previous_close * 100 is present exactly when
additionally previous_close is nonzero. -/
theorem adapter_derived_fields
    (idx : List Timestamp) (cols : List (String × List Cell)) (tk : String)
    (nm mk : Option String) (cur : String) (auto : Bool) (tz : Int) :
    ∃ rs, df_to_stockbase ⟨idx, .flat cols⟩ tk nm mk cur auto tz = .ok rs ∧
      rs.length = idx.length ∧
      (∀ r, rs.get? 0 = some r → r.previous_close = none) ∧
      (∀ k r r2, rs.get? k = some r → rs.get? (k + 1) = some r2 →
        r2.previous_close = (match r.close with
          | some cl => some cl
          | none => r.previous_close)) ∧
      (∀ r ∈ rs,
        r.change = (match r.previous_close, r.close with
          | some p, some cl => some (cl - p)
          | _, _ => none) ∧
        r.change_percent = (match r.previous_close, r.close with
          | some p, some cl => if p = 0 then none else some ((cl - p) / p * 100)
          | _, _ => none)) := by
  refine ⟨_, df_to_stockbase_flat idx cols tk nm mk cur auto tz, ?_, ?_, ?_, ?_⟩
  · rw [flatRecords_length, List.enum_length, List.length_map]
  · intro r h
    exact flatRecords_head_prev _ _ _ _ _ _ _ _ _ h
  · intro k r r2 h h2
    exact flatRecords_chain _ _ _ _ _ _ _ _ k r r2 h h2
  · intro r h
    exact flatRecords_laws _ _ _ _ _ _ _ _ r h

/-- C5 witness: on the two-row spec example (closes 100 then 101) the
amended laws give previous_close 100, change 1 and change_percent 1 for the
second record. -/
theorem adapter_derived_fields_witness :
    (df_to_stockbase ⟨[⟨0, some 0⟩, ⟨60, some 0⟩],
        .flat [("Close", [some 100, some 101])]⟩ "T" none none "USD" true 0).map
      (fun rs => rs.map (fun r => (r.previous_close, r.change, r.change_percent))) =
      .ok [(none, none, none), (some 100, some 1, some 1)] := by
  obtain ⟨rs, hok, hlen, hhead, hchain, hlaws⟩ := adapter_derived_fields
    [⟨0, some 0⟩, ⟨60, some 0⟩] [("Close", [some 100, some 101])]
    "T" none none "USD" true 0
  have hrs := Except.ok.inj (hok.symm.trans
    (df_to_stockbase_flat [⟨0, some 0⟩, ⟨60, some 0⟩] [("Close", [some 100, some 101])]
      "T" none none "USD" true 0))
  subst hrs
  have h0 := hhead _ rfl
  have h01 := hchain 0 _ _ rfl rfl
  have hl := hlaws _ (@List.get?_mem _ _ 1 _ rfl)
  with_unfolding_all rfl

/-- C6 counterexample: the claim says a naive timestamp is treated as UTC
and then converted. The code localizes the naive wall-clock reading
directly into the requested zone: naive 720 with requested offset +540
becomes wall 720 in zone +540 (instant 180), whereas treating it as UTC
and converting would give wall 1260 in zone +540 (instant 720). -/
theorem timezone_utc_counterexample :
    normalizeIndex ⟨720, none⟩ 540 = ⟨720, some 540⟩ ∧
    normalizeIndex ⟨720, none⟩ 540 ≠ tz_convert (tz_localize ⟨720, none⟩ 0) 540 ∧
    (normalizeIndex ⟨720, none⟩ 540).instant ≠ (tz_localize ⟨720, none⟩ 0).instant :=
  ⟨rfl, by decide, by decide⟩

/-- C6 (amended): the adapter index normalization localizes a naive
timestamp directly into the requested output zone, reinterpreting its
wall-clock reading there (the wall reading is kept, not shifted from UTC),
and converts — preserving the denoted instant — a timestamp that already
carries a zone. -/
theorem timezone_normalization (t : Timestamp) (off : Int) :
    (t.tz = none → normalizeIndex t off = tz_localize t off ∧
      (normalizeIndex t off).wall = t.wall ∧ (normalizeIndex t off).tz = some off) ∧
    (∀ o, t.tz = some o → normalizeIndex t off = tz_convert t off ∧
      (normalizeIndex t off).tz = some off ∧
      (normalizeIndex t off).instant = t.instant) := by
  obtain ⟨w, tzo⟩ := t
  constructor
  · intro h
    cases h
    exact ⟨rfl, rfl, rfl⟩
  · intro o h
    cases h
    refine ⟨rfl, rfl, ?_⟩
    simp only [normalizeIndex, tz_convert, Timestamp.instant, Option.getD_some]
    omega

/-- C6 witness: the amended laws at naive 720 and aware 720+60, both with
requested offset +540. -/
theorem timezone_normalization_witness :
    normalizeIndex ⟨720, none⟩ 540 = tz_localize ⟨720, none⟩ 540 ∧
    normalizeIndex ⟨720, some 60⟩ 540 = tz_convert ⟨720, some 60⟩ 540 ∧
    (normalizeIndex ⟨720, some 60⟩ 540).instant = (⟨720, some 60⟩ : Timestamp).instant := by
  have h1 := (timezone_normalization ⟨720, none⟩ 540).1 rfl
  have h2 := (timezone_normalization ⟨720, some 60⟩ 540).2 60 rfl
  exact ⟨h1.1, h2.1, h2.2.2⟩

/-- C7 counterexample: the claim says a missing/NaN numeric cell in any of
the fields, volume included, yields an explicit absent value. A NaN volume
cell is mapped to the number 0: the output is identical to the output for
a true volume of 0, so no absent value is produced for volume. -/
theorem volume_nan_counterexample :
    df_to_stockbase ⟨[⟨0, some 0⟩],
        .flat [("Close", [some 10]), ("Volume", [(none : Cell)])]⟩
        "T" none none "USD" true 0 =
      df_to_stockbase ⟨[⟨0, some 0⟩],
        .flat [("Close", [some 10]), ("Volume", [some 0])]⟩
        "T" none none "USD" true 0 ∧
    (df_to_stockbase ⟨[⟨0, some 0⟩],
        .flat [("Close", [some 10]), ("Volume", [(none : Cell)])]⟩
        "T" none none "USD" true 0).map (fun rs => rs.map StockBase.volume) =
      .ok [0] :=
  ⟨by with_unfolding_all rfl, rfl⟩

/-- C7 (amended): on a flat input table no missing/NaN cell raises
(the call returns ok), and per row: a missing/NaN open/high/low/close cell
yields an absent field; the adjusted close is absent when it is derived
from an absent close (auto-adjust on) or from a missing/NaN "Adj Close"
cell (auto-adjust off); a missing/NaN volume cell yields volume 0, not an
absent value. -/
theorem nan_cells_normalized
    (idx : List Timestamp) (cols : List (String × List Cell)) (tk : String)
    (nm mk : Option String) (cur : String) (auto : Bool) (tz : Int) :
    ∃ rs, df_to_stockbase ⟨idx, .flat cols⟩ tk nm mk cur auto tz = .ok rs ∧
      rs.length = idx.length ∧
      (∀ k r, rs.get? k = some r →
        (flatCell (renameFlat cols) "open" k = none → r.«open» = none) ∧
        (flatCell (renameFlat cols) "high" k = none → r.high = none) ∧
        (flatCell (renameFlat cols) "low" k = none → r.low = none) ∧
        (flatCell (renameFlat cols) "close" k = none → r.close = none) ∧
        (auto = true → flatCell (renameFlat cols) "close" k = none →
          r.adjusted_close = none) ∧
        (auto = false → flatCell (renameFlat cols) "Adj Close" k = none →
          r.adjusted_close = none) ∧
        (flatCell (renameFlat cols) "volume" k = none → r.volume = 0)) := by
  refine ⟨_, df_to_stockbase_flat idx cols tk nm mk cur auto tz, ?_, ?_⟩
  · rw [flatRecords_length, List.enum_length, List.length_map]
  · intro k r h
    obtain ⟨p, hp, ho, hh, hl, hc, ht, ha, hv, _⟩ :=
      flatRecords_fields _ _ _ _ _ _ _ _ k r h
    have hk : p.1 = k := by
      rw [List.get?_enum] at hp
      rcases hgl : (idx.map (fun t2 => normalizeIndex t2 tz)).get? k with _ | a
      · rw [hgl] at hp; cases hp
      · rw [hgl] at hp
        simp only [Option.map_some', Option.some.injEq] at hp
        rw [← hp]
    rw [hk] at ho hh hl hc ha hv
    refine ⟨fun h2 => by rw [ho, h2], fun h2 => by rw [hh, h2],
      fun h2 => by rw [hl, h2], fun h2 => by rw [hc, h2], ?_, ?_, ?_⟩
    · intro hauto h2
      rw [ha, hauto]
      simp [h2]
    · intro hauto h2
      rw [ha, hauto]
      simp only [Bool.false_eq_true, if_false, readAdjClose]
      split
      · exact h2
      · rfl
    · intro h2
      rw [hv, h2]

/-- C7 witness: a one-row flat table whose Open, Close and Volume cells are
all NaN yields a record with open, close and adjusted close absent and
volume 0, with no error raised. -/
theorem nan_cells_normalized_witness :
    (df_to_stockbase ⟨[⟨0, some 0⟩],
        .flat [("Open", [(none : Cell)]), ("Close", [(none : Cell)]),
               ("Volume", [(none : Cell)])]⟩ "T" none none "USD" true 0).map
      (fun rs => rs.map (fun r => (r.«open», r.close, r.adjusted_close, r.volume))) =
      .ok [(none, none, none, 0)] := by
  obtain ⟨rs, hok, hlen, hfields⟩ := nan_cells_normalized [⟨0, some 0⟩]
    [("Open", [(none : Cell)]), ("Close", [(none : Cell)]), ("Volume", [(none : Cell)])]
    "T" none none "USD" true 0
  have hrs := Except.ok.inj (hok.symm.trans (df_to_stockbase_flat _ _ _ _ _ _ _ _))
  subst hrs
  have h := hfields 0 _ rfl
  have ho := h.1 rfl
  have hc := h.2.2.2.1 rfl
  have hadj := h.2.2.2.2.1 rfl rfl
  have hv := h.2.2.2.2.2.2 rfl
  with_unfolding_all rfl

theorem sliceTicker_ticker_outer (mcols : List ((String × String) × List Cell))
    (tk : String) (h : mcols.any (fun c => c.1.1 == tk) = true) :
    sliceTicker (.multi (some "Ticker", some "Price") mcols) tk =
      .flat ((mcols.filter (fun c => c.1.1 == tk)).map (fun c => (c.1.2, c.2))) := by
  obtain ⟨x, hx, hp⟩ := List.any_eq_true.mp h
  have hne : (mcols.filter (fun c => c.1.1 == tk)).isEmpty = false :=
    List.isEmpty_eq_false.mpr (List.ne_nil_of_mem (List.mem_filter.mpr ⟨hx, hp⟩))
  simp [sliceTicker, xsTicker, hne]

theorem sliceTicker_field_outer (mcols : List ((String × String) × List Cell))
    (tk : String) (h : mcols.any (fun c => c.1.2 == tk) = true) :
    sliceTicker (.multi (some "Price", some "Ticker") mcols) tk =
      .flat ((mcols.filter (fun c => c.1.2 == tk)).map (fun c => (c.1.1, c.2))) := by
  obtain ⟨x, hx, hp⟩ := List.any_eq_true.mp h
  have hne : (mcols.filter (fun c => c.1.2 == tk)).isEmpty = false :=
    List.isEmpty_eq_false.mpr (List.ne_nil_of_mem (List.mem_filter.mpr ⟨hx, hp⟩))
  simp [sliceTicker, xsTicker, hne]

theorem sliceTicker_absent_outer (mcols : List ((String × String) × List Cell))
    (tk : String) (h : mcols.any (fun c => c.1.1 == tk) = false) :
    sliceTicker (.multi (some "Ticker", some "Price") mcols) tk =
      .multi (some "Ticker", some "Price") mcols := by
  have hnil : mcols.filter (fun c => c.1.1 == tk) = [] := by
    rw [List.filter_eq_nil_iff]
    intro c hc hcc
    have h2 : mcols.any (fun c => c.1.1 == tk) = true :=
      List.any_eq_true.mpr ⟨c, hc, hcc⟩
    rw [h] at h2
    cases h2
  simp [sliceTicker, xsTicker, hnil]

theorem buildRow_multi_defaults (names : Option String × Option String)
    (cols2 : List ((String × String) × List Cell)) (auto : Bool) (tk : String)
    (nm mk : Option String) (cur : String) (i : Nat) (t : Timestamp) (prev : Cell)
    (hno : ∀ s ∈ (["open", "high", "low", "close", "volume"] : List String),
      cols2.any (fun col => col.1.1 == s) = false)
    (hadj : Columns.containsName (.multi names cols2) "Adj Close" = false) :
    buildRow (.multi names cols2) auto tk nm mk cur i t prev =
      .ok { ticker := tk, name := nm, market := mk, currency := cur, time := t,
            «open» := none, high := none, low := none, close := none,
            previous_close := prev, change := none, change_percent := none,
            adjusted_close := none, volume := 0 } := by
  have ho := hno "open" (by simp)
  have hh := hno "high" (by simp)
  have hl := hno "low" (by simp)
  have hc := hno "close" (by simp)
  have hv := hno "volume" (by simp)
  simp only [buildRow, readField, readAdjClose, ho, hh, hl, hc, hv, hadj,
    Bool.false_eq_true, if_false]
  cases prev <;> cases auto <;> rfl

theorem adapterRows_multi_defaults (names : Option String × Option String)
    (cols2 : List ((String × String) × List Cell)) (auto : Bool) (tk : String)
    (nm mk : Option String) (cur : String)
    (hno : ∀ s ∈ (["open", "high", "low", "close", "volume"] : List String),
      cols2.any (fun col => col.1.1 == s) = false)
    (hadj : Columns.containsName (.multi names cols2) "Adj Close" = false)
    (rows : List (Nat × Timestamp)) :
    ∀ prev : Cell,
      adapterRows (.multi names cols2) auto tk nm mk cur rows prev =
        .ok (rows.map (fun p =>
          { ticker := tk, name := nm, market := mk, currency := cur, time := p.2,
            «open» := none, high := none, low := none, close := none,
            previous_close := prev, change := none, change_percent := none,
            adjusted_close := none, volume := 0 })) := by
  induction rows with
  | nil => intro prev; rfl
  | cons p rest ih =>
      intro prev
      obtain ⟨i, t⟩ := p
      rw [adapterRows, buildRow_multi_defaults names cols2 auto tk nm mk cur i t prev
        hno hadj]
      simp only [Bind.bind, Except.bind, ih]
      rfl

/-- C8 counterexample: the claim says that when the requested ticker's
columns are absent from a grouped (MultiIndex) table, every field of the
produced records defaults to absent/null rather than raising. With the
ticker level outermost, the produced record carries volume 0 — a number,
not an absent value. And with the field level outermost (the layout
multi-ticker downloads produce), the per-row field lookup hits the
requested field at level 0, yields a sub-Series, and its truth-value test
raises instead of defaulting. -/
theorem multiindex_absent_ticker_counterexample :
    (df_to_stockbase ⟨[⟨0, some 0⟩], .multi (some "Ticker", some "Price")
        [(("AAPL", "Open"), [some 1]), (("AAPL", "Close"), [some 2]),
         (("AAPL", "Volume"), [some 100])]⟩ "MSFT" none none "USD" true 0).map
      (fun rs => rs.map (fun r => (r.«open», r.close, r.volume))) =
      .ok [(none, none, 0)] ∧
    df_to_stockbase ⟨[⟨0, some 0⟩], .multi (some "Price", some "Ticker")
        [(("Open", "AAPL"), [some 1]), (("Close", "AAPL"), [some 2]),
         (("Volume", "AAPL"), [some 100])]⟩ "MSFT" none none "USD" true 0 =
      .error "The truth value of a Series is ambiguous" := ⟨rfl, rfl⟩

/-- C8 (amended): when the requested ticker is present at the level named
"Ticker", the adapter slices its sub-columns out regardless of whether
tickers are the outer or the inner level and behaves exactly as on the
equivalent non-grouped single-ticker table. When the requested ticker is
absent and tickers are the outer level (and no ticker label collides with
a field name), the adapter does not raise: it produces one record per row
whose price fields are all absent and whose volume is 0 — not absent.
(When fields are the outer level instead, the lookup raises; shown on a
concrete input in the counterexample.) -/
theorem multiindex_slice
    (idx : List Timestamp) (mcols : List ((String × String) × List Cell))
    (tk : String) (nm mk : Option String) (cur : String) (auto : Bool) (tz : Int) :
    (mcols.any (fun c => c.1.1 == tk) = true →
      df_to_stockbase ⟨idx, .multi (some "Ticker", some "Price") mcols⟩
          tk nm mk cur auto tz =
        df_to_stockbase ⟨idx, .flat ((mcols.filter (fun c => c.1.1 == tk)).map
          (fun c => (c.1.2, c.2)))⟩ tk nm mk cur auto tz) ∧
    (mcols.any (fun c => c.1.2 == tk) = true →
      df_to_stockbase ⟨idx, .multi (some "Price", some "Ticker") mcols⟩
          tk nm mk cur auto tz =
        df_to_stockbase ⟨idx, .flat ((mcols.filter (fun c => c.1.2 == tk)).map
          (fun c => (c.1.1, c.2)))⟩ tk nm mk cur auto tz) ∧
    (mcols.any (fun c => c.1.1 == tk) = false →
      (∀ c ∈ mcols, c.1.1 ∉ (["Open", "High", "Low", "Close", "Volume", "open",
        "high", "low", "close", "volume", "Adj Close"] : List String)) →
      ∃ rs, df_to_stockbase ⟨idx, .multi (some "Ticker", some "Price") mcols⟩
          tk nm mk cur auto tz = .ok rs ∧
        rs.length = idx.length ∧
        ∀ r ∈ rs, r.«open» = none ∧ r.high = none ∧ r.low = none ∧ r.close = none ∧
          r.previous_close = none ∧ r.change = none ∧ r.change_percent = none ∧
          r.adjusted_close = none ∧ r.volume = 0) := by
  refine ⟨?_, ?_, ?_⟩
  · intro h
    simp only [df_to_stockbase]
    rw [sliceTicker_ticker_outer mcols tk h]
    rfl
  · intro h
    simp only [df_to_stockbase]
    rw [sliceTicker_field_outer mcols tk h]
    rfl
  · intro h hdisj
    have hkeyno : ∀ key : String,
        key ∈ (["Open", "High", "Low", "Close", "Volume", "open", "high", "low",
          "close", "volume", "Adj Close"] : List String) →
        mcols.any (fun col => col.1.1 == key) = false := by
      intro key hkey
      rw [List.any_eq_false]
      intro c hc hcc
      exact hdisj c hc (by rw [show c.1.1 = key from beq_iff_eq.mp hcc]; exact hkey)
    have hmap : column_map.filter (fun kv =>
        Columns.containsName (.multi (some "Ticker", some "Price") mcols) kv.1) = [] := by
      rw [List.filter_eq_nil_iff]
      intro kv hkv hcont
      have hfalse : mcols.any (fun col => col.1.1 == kv.1) = false := by
        apply hkeyno
        rcases (by simpa [column_map] using hkv :
          kv = ("Open", "open") ∨ kv = ("High", "high") ∨ kv = ("Low", "low") ∨
          kv = ("Close", "close") ∨ kv = ("Volume", "volume")) with
          rfl | rfl | rfl | rfl | rfl <;> simp
      simp only [Columns.containsName] at hcont
      rw [hfalse] at hcont
      cases hcont
    have hrename : renameColumns (.multi (some "Ticker", some "Price") mcols) =
        .multi (some "Ticker", some "Price") mcols := by
      simp only [renameColumns, hmap]
      rw [show (fun col : (String × String) × List Cell =>
        ((applyMapper [] col.1.1, applyMapper [] col.1.2), col.2)) =
        fun col : (String × String) × List Cell => col from rfl]
      rw [List.map_id']
    have hno : ∀ s ∈ (["open", "high", "low", "close", "volume"] : List String),
        mcols.any (fun col => col.1.1 == s) = false := by
      intro s hs
      apply hkeyno
      rcases (by simpa using hs :
        s = "open" ∨ s = "high" ∨ s = "low" ∨ s = "close" ∨ s = "volume") with
        rfl | rfl | rfl | rfl | rfl <;> simp
    have hadj : Columns.containsName (.multi (some "Ticker", some "Price") mcols)
        "Adj Close" = false := by
      simp only [Columns.containsName]
      exact hkeyno "Adj Close" (by simp)
    refine ⟨((idx.map (fun t => normalizeIndex t tz)).enum).map (fun p =>
      { ticker := tk, name := nm, market := mk, currency := cur, time := p.2,
        «open» := none, high := none, low := none, close := none,
        previous_close := none, change := none, change_percent := none,
        adjusted_close := none, volume := 0 }), ?_, ?_, ?_⟩
    · simp only [df_to_stockbase]
      rw [sliceTicker_absent_outer mcols tk h, hrename]
      exact adapterRows_multi_defaults _ mcols auto tk nm mk cur hno hadj _ none
    · simp [List.enum_length]
    · intro r hr
      obtain ⟨p, _, rfl⟩ := List.mem_map.mp hr
      exact ⟨rfl, rfl, rfl, rfl, rfl, rfl, rfl, rfl, rfl⟩

/-- C8 witness: slicing works for both nesting orders on a concrete grouped
one-ticker table, and a grouped table with only AAPL columns queried for
MSFT (tickers outermost) yields a record with price fields absent and
volume 0. -/
theorem multiindex_slice_witness :
    df_to_stockbase ⟨[⟨0, some 0⟩], .multi (some "Ticker", some "Price")
        [(("AAPL", "Close"), [some 2])]⟩ "AAPL" none none "USD" true 0 =
      df_to_stockbase ⟨[⟨0, some 0⟩], .flat [("Close", [some 2])]⟩
        "AAPL" none none "USD" true 0 ∧
    df_to_stockbase ⟨[⟨0, some 0⟩], .multi (some "Price", some "Ticker")
        [(("Close", "AAPL"), [some 2])]⟩ "AAPL" none none "USD" true 0 =
      df_to_stockbase ⟨[⟨0, some 0⟩], .flat [("Close", [some 2])]⟩
        "AAPL" none none "USD" true 0 ∧
    (df_to_stockbase ⟨[⟨0, some 0⟩], .multi (some "Ticker", some "Price")
        [(("AAPL", "Close"), [some 2])]⟩ "MSFT" none none "USD" true 0).map
      (fun rs => rs.map (fun r => (r.close, r.volume))) = .ok [(none, 0)] := by
  have h1 := multiindex_slice [⟨0, some 0⟩] [(("AAPL", "Close"), [some 2])]
    "AAPL" none none "USD" true 0
  have h2 := multiindex_slice [⟨0, some 0⟩] [(("Close", "AAPL"), [some 2])]
    "AAPL" none none "USD" true 0
  have h3 := multiindex_slice [⟨0, some 0⟩] [(("AAPL", "Close"), [some 2])]
    "MSFT" none none "USD" true 0
  obtain ⟨rs, hok, hlen, hfields⟩ := h3.2.2 (by decide) (by decide)
  refine ⟨h1.1 (by decide), h2.2.1 (by decide), ?_⟩
  have hcomp : df_to_stockbase ⟨[⟨0, some 0⟩], .multi (some "Ticker", some "Price")
      [(("AAPL", "Close"), [some 2])]⟩ "MSFT" none none "USD" true 0 =
      .ok [{ ticker := "MSFT", name := none, market := none, currency := "USD",
             time := ⟨0, some 0⟩, «open» := none, high := none, low := none,
             close := none, previous_close := none, change := none,
             change_percent := none, adjusted_close := none, volume := 0 }] := rfl
  have hrs := Except.ok.inj (hok.symm.trans hcomp)
  subst hrs
  have hmem := hfields _ (List.mem_cons_self _ _)
  rw [hcomp]
  rfl
